import Mathlib

set_option maxRecDepth 4000

/-!
Shallow embedding of the career decision model in
`app/game_theory/career_game_model.py`, together with theorems settling the
specification claims about it.

Python dictionaries are embedded as insertion-ordered association lists (CPython
dicts preserve insertion order).  Scores are declared `List[float]` in the
source; every score value exercised here is exactly representable, so scores are
embedded as rationals and all arithmetic is exact.  Fallible operations (numpy
reductions that raise on empty or ragged input, uncaught Python exceptions)
are embedded as `Option`/`Except`: a `none`/`.error` result models an exception
propagating out of the function, not a returned value.
-/

abbrev Score := ℚ

/-- State of a `CareerGameModel` object: `self.career_matrix` (a dict mapping
career names to score vectors) and `self.criteria_labels`. -/
structure CareerGameModel where
  career_matrix : List (String × List Score)
  criteria_labels : List String
deriving DecidableEq, Repr

/-- `DEFAULT_CAREER_MATRIX` from the source (module-level fallback table). -/
def DEFAULT_CAREER_MATRIX : List (String × List Score) :=
  [("Software Engineer", [9, 6, 7, 6, 6]),
   ("Data Scientist", [8, 7, 8, 5, 6]),
   ("MBA", [6, 5, 9, 3, 9]),
   ("UX Designer", [7, 6, 6, 7, 7]),
   ("Entrepreneur", [9, 3, 10, 2, 4]),
   ("Researcher (PhD)", [5, 8, 6, 7, 2])]

/-- `DEFAULT_CRITERIA_LABELS` from the source. -/
def DEFAULT_CRITERIA_LABELS : List String :=
  ["Salary", "Stability", "Growth", "Risk-Resistance", "Ease of Education"]

/-- `CareerGameModel.__init__`: `self.career_matrix = career_matrix or
DEFAULT_CAREER_MATRIX` and likewise for the labels.  Python `or` falls back to
the default when the argument is `None` or falsy (an empty dict / empty list),
so the constructor silently replaces an empty argument by the default. -/
def mkCareerGameModel (career_matrix : Option (List (String × List Score)))
    (criteria_labels : Option (List String)) : CareerGameModel where
  career_matrix :=
    match career_matrix with
    | some cm => if cm = [] then DEFAULT_CAREER_MATRIX else cm
    | none => DEFAULT_CAREER_MATRIX
  criteria_labels :=
    match criteria_labels with
    | some cl => if cl = [] then DEFAULT_CRITERIA_LABELS else cl
    | none => DEFAULT_CRITERIA_LABELS

/-- `CareerGameModel.update_career_matrix`: the matrix is assigned
unconditionally; the labels are assigned under `if criteria_labels:`, a Python
truthiness test, so they are kept when the argument is `None` or an empty
list. -/
def update_career_matrix (self : CareerGameModel)
    (career_matrix : List (String × List Score))
    (criteria_labels : Option (List String)) : CareerGameModel where
  career_matrix := career_matrix
  criteria_labels :=
    match criteria_labels with
    | some cl => if cl = [] then self.criteria_labels else cl
    | none => self.criteria_labels

/-- `CareerGameModel.get_payoff_matrix`: returns
`(np.array(list(self.career_matrix.values())), list(self.career_matrix.keys()))`
in dict insertion order. -/
def get_payoff_matrix (self : CareerGameModel) :
    List (List Score) × List String :=
  (self.career_matrix.map Prod.snd, self.career_matrix.map Prod.fst)

/-- `np.min(row)` over one row (a reduction over the row's scores); the `0`
for an empty row is never consulted: the callers guard row-emptiness via
`matrixShapeOk`, because numpy raises on a zero-size reduction. -/
def listMin : List Score → Score
  | [] => 0
  | [v] => v
  | v :: w :: t => min v (listMin (w :: t))

/-- `np.max(row)` over one row; same guard convention as `listMin`. -/
def listMax : List Score → Score
  | [] => 0
  | [v] => v
  | v :: w :: t => max v (listMax (w :: t))

/-- `np.argmax`: index of the first occurrence of the maximum value (numpy
documents that on ties the first occurrence is returned).  The `0` for an
empty list is never consulted: `np.argmax` raises on an empty array and the
callers guard that case via `matrixShapeOk`. -/
def np_argmax : List Score → Nat
  | [] => 0
  | [_] => 0
  | v :: w :: t => if listMax (w :: t) ≤ v then 0 else np_argmax (w :: t) + 1

/-- Shape guard for the numpy row-wise reductions used by the source:
`np.array(list(values))` followed by `np.min(..., axis=1)` (and the other
`axis=1` reductions) succeeds exactly when there is at least one row, the rows
all have the same length, and that length is positive.  Otherwise numpy raises
(AxisError on zero rows, ValueError on ragged input or zero-size reductions). -/
def matrixShapeOk (rows : List (List Score)) : Bool :=
  match rows with
  | [] => false
  | r0 :: rest => decide (0 < r0.length) && rest.all (fun r => r.length == r0.length)

/-- `CareerGameModel.calculate_strategy_scores`: row-wise worst case then
`np.argmax`.  A `none` result models the numpy exception raised on a
degenerate (empty / ragged / zero-criteria) matrix. -/
def calculate_strategy_scores (self : CareerGameModel) :
    Option (Nat × List Score) :=
  let rows := (get_payoff_matrix self).1
  if matrixShapeOk rows then
    let worst_case_payoffs := rows.map listMin
    some (np_argmax worst_case_payoffs, worst_case_payoffs)
  else none

/-- `CareerGameModel.explain_game_theory_choice`: the computed content of the
rendered explanation — the selected career `careers[idx]`, its worst-case score
`worst_scores[idx]`, and the per-career breakdown `zip(careers, worst_scores)`.
The surrounding f-string template carries no computation and is elided.  A
`none` result models an exception propagating out (from
`calculate_strategy_scores`, or from the indexing it feeds). -/
def explain_game_theory_choice (self : CareerGameModel) :
    Option (String × Score × List (String × Score)) :=
  match calculate_strategy_scores self with
  | none => none
  | some (idx, worst_scores) =>
    let careers := (get_payoff_matrix self).2
    match careers.get? idx with
    | none => none
    | some best_career =>
      some (best_career, worst_scores.getD idx 0, careers.zip worst_scores)

/-- One entry of `CareerGameModel.get_career_rankings`. -/
structure RankEntry where
  total_score : Score
  average_score : Score
  worst_case_score : Score
  best_case_score : Score
  payoff_vector : List Score
deriving DecidableEq, Repr

/-- `CareerGameModel.get_career_rankings`: per-career sum, mean (`sum / m`),
min and max over the score vector, in dict insertion order.  A `none` result
models the numpy exception on a degenerate matrix (the `axis=1` reductions
raise there, before the loop runs). -/
def get_career_rankings (self : CareerGameModel) :
    Option (List (String × RankEntry)) :=
  let rows := (get_payoff_matrix self).1
  let careers := (get_payoff_matrix self).2
  if matrixShapeOk rows then
    some ((careers.zip rows).map (fun p =>
      (p.1,
       { total_score := p.2.sum,
         average_score := p.2.sum / (p.2.length : ℚ),
         worst_case_score := listMin p.2,
         best_case_score := listMax p.2,
         payoff_vector := p.2 })))
  else none

/-- Worst-case (minimum-over-criteria) score of the option at index `j` of the
table, read off the payoff matrix; used to state the minimax claims. -/
def worstCase (model : CareerGameModel) (j : Nat) : Score :=
  listMin ((model.career_matrix.map Prod.snd).getD j [])

/-- The model whose table has been emptied through `update_career_matrix`
(the only way to reach an empty table, see the constructor's fallback). -/
def emptyTableModel : CareerGameModel :=
  update_career_matrix (mkCareerGameModel none none) [] none

/-! ### Helper lemmas about the numpy reductions -/

theorem listMin_cons_cons (v w : Score) (t : List Score) :
    listMin (v :: w :: t) = min v (listMin (w :: t)) := rfl

theorem listMax_cons_cons (v w : Score) (t : List Score) :
    listMax (v :: w :: t) = max v (listMax (w :: t)) := rfl

theorem listMin_le_of_mem : ∀ (l : List Score) (a : Score), a ∈ l → listMin l ≤ a := by
  intro l
  induction l with
  | nil => intro a h; cases h
  | cons v t ih =>
    intro a h
    cases t with
    | nil =>
      rcases List.mem_singleton.mp h with rfl
      exact le_refl _
    | cons w t2 =>
      rw [listMin_cons_cons]
      rcases List.mem_cons.mp h with rfl | hmem
      · exact min_le_left _ _
      · exact le_trans (min_le_right _ _) (ih a hmem)

theorem le_listMax_of_mem : ∀ (l : List Score) (a : Score), a ∈ l → a ≤ listMax l := by
  intro l
  induction l with
  | nil => intro a h; cases h
  | cons v t ih =>
    intro a h
    cases t with
    | nil =>
      rcases List.mem_singleton.mp h with rfl
      exact le_refl _
    | cons w t2 =>
      rw [listMax_cons_cons]
      rcases List.mem_cons.mp h with rfl | hmem
      · exact le_max_left _ _
      · exact le_trans (ih a hmem) (le_max_right _ _)

theorem getD_mem_of_lt {α : Type} (d : α) : ∀ (l : List α) (j : Nat),
    j < l.length → l.getD j d ∈ l := by
  intro l
  induction l with
  | nil => intro j hj; cases hj
  | cons v t ih =>
    intro j hj
    cases j with
    | zero => rw [List.getD_cons_zero]; exact List.mem_cons_self _ _
    | succ k =>
      rw [List.getD_cons_succ]
      exact List.mem_cons_of_mem _ (ih k (Nat.lt_of_succ_lt_succ hj))

theorem getD_map_listMin : ∀ (rows : List (List Score)) (j : Nat),
    j < rows.length → (rows.map listMin).getD j 0 = listMin (rows.getD j []) := by
  intro rows
  induction rows with
  | nil => intro j hj; cases hj
  | cons r t ih =>
    intro j hj
    cases j with
    | zero => rw [List.map_cons, List.getD_cons_zero, List.getD_cons_zero]
    | succ k =>
      rw [List.map_cons, List.getD_cons_succ, List.getD_cons_succ]
      exact ih k (Nat.lt_of_succ_lt_succ hj)

theorem np_argmax_lt_length : ∀ (l : List Score), l ≠ [] → np_argmax l < l.length := by
  intro l
  induction l with
  | nil => intro h; exact absurd rfl h
  | cons v t ih =>
    intro _
    cases t with
    | nil => exact Nat.zero_lt_one
    | cons w t2 =>
      rw [show np_argmax (v :: w :: t2) =
          if listMax (w :: t2) ≤ v then 0 else np_argmax (w :: t2) + 1 from rfl]
      split
      · simp
      · have h2 := ih (by simp)
        exact Nat.succ_lt_succ h2

theorem getD_np_argmax : ∀ (l : List Score), l ≠ [] →
    l.getD (np_argmax l) 0 = listMax l := by
  intro l
  induction l with
  | nil => intro h; exact absurd rfl h
  | cons v t ih =>
    intro _
    cases t with
    | nil => rfl
    | cons w t2 =>
      rw [show np_argmax (v :: w :: t2) =
          if listMax (w :: t2) ≤ v then 0 else np_argmax (w :: t2) + 1 from rfl,
          listMax_cons_cons]
      by_cases hle : listMax (w :: t2) ≤ v
      · rw [if_pos hle, List.getD_cons_zero, max_eq_left hle]
      · rw [if_neg hle, List.getD_cons_succ, ih (by simp),
            max_eq_right (le_of_not_le hle)]

theorem getD_lt_of_lt_np_argmax : ∀ (l : List Score) (k : Nat), k < np_argmax l →
    l.getD k 0 < l.getD (np_argmax l) 0 := by
  intro l
  induction l with
  | nil => intro k hk; cases hk
  | cons v t ih =>
    intro k hk
    cases t with
    | nil => cases hk
    | cons w t2 =>
      rw [show np_argmax (v :: w :: t2) =
          if listMax (w :: t2) ≤ v then 0 else np_argmax (w :: t2) + 1 from rfl] at hk ⊢
      by_cases hle : listMax (w :: t2) ≤ v
      · rw [if_pos hle] at hk; cases hk
      · rw [if_neg hle] at hk ⊢
        rw [List.getD_cons_succ, getD_np_argmax (w :: t2) (by simp)]
        cases k with
        | zero =>
          rw [List.getD_cons_zero]
          exact lt_of_not_le hle
        | succ k2 =>
          rw [List.getD_cons_succ]
          have h2 := ih k2 (Nat.lt_of_succ_lt_succ hk)
          rw [getD_np_argmax (w :: t2) (by simp)] at h2
          exact h2

theorem matrixShapeOk_of_uniform {rows : List (List Score)} {m : Nat}
    (hm : 0 < m) (hne : rows ≠ []) (hall : ∀ r ∈ rows, r.length = m) :
    matrixShapeOk rows = true := by
  cases rows with
  | nil => exact absurd rfl hne
  | cons r0 rest =>
    have h0 : r0.length = m := hall r0 (List.mem_cons_self _ _)
    simp only [matrixShapeOk, Bool.and_eq_true, decide_eq_true_eq, List.all_eq_true]
    refine ⟨by omega, ?_⟩
    intro r hr
    rw [beq_iff_eq, hall r (List.mem_cons_of_mem _ hr), h0]

theorem length_mul_listMin_le_sum : ∀ (l : List Score), l ≠ [] →
    (l.length : ℚ) * listMin l ≤ l.sum := by
  intro l
  induction l with
  | nil => intro h; exact absurd rfl h
  | cons v t ih =>
    intro _
    cases t with
    | nil => simp [listMin]
    | cons w t2 =>
      have h1 : ((w :: t2).length : ℚ) * listMin (w :: t2) ≤ (w :: t2).sum := ih (by simp)
      have h2 : listMin (v :: w :: t2) ≤ v := by
        rw [listMin_cons_cons]; exact min_le_left _ _
      have h3 : listMin (v :: w :: t2) ≤ listMin (w :: t2) := by
        rw [listMin_cons_cons]; exact min_le_right _ _
      have h4 : (0 : ℚ) ≤ ((w :: t2).length : ℚ) := by positivity
      rw [List.length_cons, List.sum_cons]
      push_cast
      nlinarith [mul_le_mul_of_nonneg_left h3 h4]

theorem sum_le_length_mul_listMax : ∀ (l : List Score), l ≠ [] →
    l.sum ≤ (l.length : ℚ) * listMax l := by
  intro l
  induction l with
  | nil => intro h; exact absurd rfl h
  | cons v t ih =>
    intro _
    cases t with
    | nil => simp [listMax]
    | cons w t2 =>
      have h1 : (w :: t2).sum ≤ ((w :: t2).length : ℚ) * listMax (w :: t2) := ih (by simp)
      have h2 : v ≤ listMax (v :: w :: t2) := by
        rw [listMax_cons_cons]; exact le_max_left _ _
      have h3 : listMax (w :: t2) ≤ listMax (v :: w :: t2) := by
        rw [listMax_cons_cons]; exact le_max_right _ _
      have h4 : (0 : ℚ) ≤ ((w :: t2).length : ℚ) := by positivity
      rw [List.length_cons, List.sum_cons]
      push_cast
      nlinarith [mul_le_mul_of_nonneg_left h3 h4]

/-! ### Shared facts about `calculate_strategy_scores` -/

theorem calc_eq_some (model : CareerGameModel)
    (hshape : matrixShapeOk (model.career_matrix.map Prod.snd) = true) :
    calculate_strategy_scores model =
      some (np_argmax ((model.career_matrix.map Prod.snd).map listMin),
            (model.career_matrix.map Prod.snd).map listMin) := by
  unfold calculate_strategy_scores
  simp only [get_payoff_matrix]
  rw [if_pos hshape]

theorem worstCase_eq_getD (model : CareerGameModel) (j : Nat)
    (hj : j < model.career_matrix.length) :
    worstCase model j = ((model.career_matrix.map Prod.snd).map listMin).getD j 0 := by
  unfold worstCase
  exact (getD_map_listMin _ j (by simpa using hj)).symm

/-- C1: for every non-empty well-formed payoff table (at least one option, all
options sharing a positive criterion count `m`), `calculate_strategy_scores`
succeeds and the selected option's worst-case (minimum-over-criteria) score is
greater than or equal to the worst-case score of every option in the table. -/
theorem minimax_selected_is_worst_case_optimal (model : CareerGameModel)
    (m : Nat) (hm : 0 < m) (hne : model.career_matrix ≠ [])
    (hrect : ∀ p ∈ model.career_matrix, p.2.length = m) :
    ∃ idx worst, calculate_strategy_scores model = some (idx, worst) ∧
      idx < model.career_matrix.length ∧
      ∀ j, j < model.career_matrix.length →
        worstCase model j ≤ worstCase model idx := by
  have hall : ∀ r ∈ model.career_matrix.map Prod.snd, r.length = m := by
    intro r hr
    rcases List.mem_map.mp hr with ⟨p, hp, rfl⟩
    exact hrect p hp
  have hshape : matrixShapeOk (model.career_matrix.map Prod.snd) = true :=
    matrixShapeOk_of_uniform hm (by simpa using hne) hall
  have hworstne : (model.career_matrix.map Prod.snd).map listMin ≠ [] := by
    simpa using hne
  have hlen1 : ((model.career_matrix.map Prod.snd).map listMin).length
      = model.career_matrix.length := by simp
  have hidx := np_argmax_lt_length _ hworstne
  refine ⟨np_argmax ((model.career_matrix.map Prod.snd).map listMin),
          (model.career_matrix.map Prod.snd).map listMin,
          calc_eq_some model hshape, by omega, ?_⟩
  intro j hj
  rw [worstCase_eq_getD model j hj, worstCase_eq_getD model _ (by omega),
      getD_np_argmax _ hworstne]
  exact le_listMax_of_mem _ _ (getD_mem_of_lt _ _ j (by omega))

/-- C1 witness: the default six-career table (five criteria). -/
theorem minimax_selected_is_worst_case_optimal_witness :
    0 < 5 ∧ (mkCareerGameModel none none).career_matrix ≠ [] ∧
    (∀ p ∈ (mkCareerGameModel none none).career_matrix, p.2.length = 5) ∧
    (∃ idx worst,
      calculate_strategy_scores (mkCareerGameModel none none) = some (idx, worst) ∧
      idx < (mkCareerGameModel none none).career_matrix.length ∧
      ∀ j, j < (mkCareerGameModel none none).career_matrix.length →
        worstCase (mkCareerGameModel none none) j ≤
        worstCase (mkCareerGameModel none none) idx) :=
  ⟨by decide, by decide, by decide,
   minimax_selected_is_worst_case_optimal (mkCareerGameModel none none) 5
     (by decide) (by decide) (by decide)⟩

/-- C2 (amended): on a table with zero options, `calculate_strategy_scores` and
`explain_game_theory_choice` do not return a well-defined "no selection"
result: the numpy reduction raises (modelled by `none`), so an exception
propagates to the callers instead of a detectable value. -/
theorem empty_table_scoring_raises (model : CareerGameModel)
    (h : model.career_matrix = []) :
    calculate_strategy_scores model = none ∧
    explain_game_theory_choice model = none := by
  have hc : calculate_strategy_scores model = none := by
    unfold calculate_strategy_scores
    simp [get_payoff_matrix, h, matrixShapeOk]
  refine ⟨hc, ?_⟩
  unfold explain_game_theory_choice
  rw [hc]

/-- C2 witness: the concrete model emptied through `update_career_matrix`. -/
theorem empty_table_scoring_raises_witness :
    emptyTableModel.career_matrix = [] ∧
    (calculate_strategy_scores emptyTableModel = none ∧
     explain_game_theory_choice emptyTableModel = none) :=
  ⟨rfl, empty_table_scoring_raises emptyTableModel rfl⟩

/-- C2 counterexample: on the concrete zero-option table, neither
`calculate_strategy_scores` nor `explain_game_theory_choice` produces a
(`some`) result a caller could detect — `none` models the `numpy.AxisError`
raised by `np.min(..., axis=1)` on the empty matrix, which propagates. -/
theorem empty_table_no_selection_counterexample :
    emptyTableModel.career_matrix = [] ∧
    calculate_strategy_scores emptyTableModel = none ∧
    explain_game_theory_choice emptyTableModel = none := by
  exact ⟨rfl, rfl, rfl⟩

/-- C6: tie-break determinism: whenever the worst-case score of option `i` ties
with a later option `j` and is maximal, the selected index is at most `i` (the
first maximal option in insertion order wins) with the same worst-case score,
and evaluating the scores again over the unchanged table yields the same
result. -/
theorem tie_break_first_insertion_order (model : CareerGameModel)
    (m : Nat) (hm : 0 < m) (hne : model.career_matrix ≠ [])
    (hrect : ∀ p ∈ model.career_matrix, p.2.length = m)
    (i j : Nat) (hi : i < model.career_matrix.length)
    (hj : j < model.career_matrix.length) (hij : i < j)
    (htie : worstCase model i = worstCase model j)
    (hmax : ∀ k, k < model.career_matrix.length →
      worstCase model k ≤ worstCase model i) :
    ∃ idx worst, calculate_strategy_scores model = some (idx, worst) ∧
      idx ≤ i ∧ worstCase model idx = worstCase model i ∧
      calculate_strategy_scores model = calculate_strategy_scores model := by
  have hall : ∀ r ∈ model.career_matrix.map Prod.snd, r.length = m := by
    intro r hr
    rcases List.mem_map.mp hr with ⟨p, hp, rfl⟩
    exact hrect p hp
  have hshape : matrixShapeOk (model.career_matrix.map Prod.snd) = true :=
    matrixShapeOk_of_uniform hm (by simpa using hne) hall
  have hworstne : (model.career_matrix.map Prod.snd).map listMin ≠ [] := by
    simpa using hne
  have hlen1 : ((model.career_matrix.map Prod.snd).map listMin).length
      = model.career_matrix.length := by simp
  have hidx := np_argmax_lt_length _ hworstne
  have hle : np_argmax ((model.career_matrix.map Prod.snd).map listMin) ≤ i := by
    by_contra hgt
    push_neg at hgt
    have hlt := getD_lt_of_lt_np_argmax
      ((model.career_matrix.map Prod.snd).map listMin) i hgt
    rw [← worstCase_eq_getD model i hi, ← worstCase_eq_getD model _ (by omega)] at hlt
    exact absurd (hmax _ (by omega)) (not_le.mpr hlt)
  have hgemax : worstCase model i ≤
      worstCase model (np_argmax ((model.career_matrix.map Prod.snd).map listMin)) := by
    rw [worstCase_eq_getD model i hi, worstCase_eq_getD model _ (by omega),
        getD_np_argmax _ hworstne]
    exact le_listMax_of_mem _ _ (getD_mem_of_lt _ _ i (by omega))
  exact ⟨np_argmax ((model.career_matrix.map Prod.snd).map listMin),
         (model.career_matrix.map Prod.snd).map listMin,
         calc_eq_some model hshape, hle,
         le_antisymm (hmax _ (by omega)) hgemax, rfl⟩

/-- C6 witness: a two-option table with tied worst-case scores. -/
theorem tie_break_first_insertion_order_witness :
    0 < 1 ∧
    (update_career_matrix (mkCareerGameModel none none)
        [("A", [5]), ("B", [5])] none).career_matrix ≠ [] ∧
    (∀ p ∈ (update_career_matrix (mkCareerGameModel none none)
        [("A", [5]), ("B", [5])] none).career_matrix, p.2.length = 1) ∧
    (0 : Nat) < 2 ∧ (1 : Nat) < 2 ∧ (0 : Nat) < 1 ∧
    worstCase (update_career_matrix (mkCareerGameModel none none)
        [("A", [5]), ("B", [5])] none) 0 =
      worstCase (update_career_matrix (mkCareerGameModel none none)
        [("A", [5]), ("B", [5])] none) 1 ∧
    (∀ k, k < (update_career_matrix (mkCareerGameModel none none)
        [("A", [5]), ("B", [5])] none).career_matrix.length →
      worstCase (update_career_matrix (mkCareerGameModel none none)
          [("A", [5]), ("B", [5])] none) k ≤
        worstCase (update_career_matrix (mkCareerGameModel none none)
          [("A", [5]), ("B", [5])] none) 0) ∧
    (∃ idx worst,
      calculate_strategy_scores (update_career_matrix (mkCareerGameModel none none)
          [("A", [5]), ("B", [5])] none) = some (idx, worst) ∧
      idx ≤ 0 ∧
      worstCase (update_career_matrix (mkCareerGameModel none none)
          [("A", [5]), ("B", [5])] none) idx =
        worstCase (update_career_matrix (mkCareerGameModel none none)
          [("A", [5]), ("B", [5])] none) 0 ∧
      calculate_strategy_scores (update_career_matrix (mkCareerGameModel none none)
          [("A", [5]), ("B", [5])] none) =
        calculate_strategy_scores (update_career_matrix (mkCareerGameModel none none)
          [("A", [5]), ("B", [5])] none)) :=
  ⟨by decide, by decide, by decide, by decide, by decide, by decide, by decide,
   by decide,
   tie_break_first_insertion_order _ 1 (by decide) (by decide) (by decide)
     0 1 (by decide) (by decide) (by decide) (by decide) (by decide)⟩

/-- C7: for every option of a well-formed table with `m ≥ 1` criteria,
`get_career_rankings` succeeds and each entry satisfies
`worst_case_score ≤ average_score ≤ best_case_score` with
`average_score = total_score / m`. -/
theorem rankings_bounds_and_average (model : CareerGameModel)
    (m : Nat) (hm : 0 < m) (hne : model.career_matrix ≠ [])
    (hrect : ∀ p ∈ model.career_matrix, p.2.length = m) :
    ∃ entries, get_career_rankings model = some entries ∧
      ∀ e ∈ entries,
        e.2.worst_case_score ≤ e.2.average_score ∧
        e.2.average_score ≤ e.2.best_case_score ∧
        e.2.average_score = e.2.total_score / (m : ℚ) := by
  have hall : ∀ r ∈ model.career_matrix.map Prod.snd, r.length = m := by
    intro r hr
    rcases List.mem_map.mp hr with ⟨p, hp, rfl⟩
    exact hrect p hp
  have hshape : matrixShapeOk (model.career_matrix.map Prod.snd) = true :=
    matrixShapeOk_of_uniform hm (by simpa using hne) hall
  refine ⟨((model.career_matrix.map Prod.fst).zip
      (model.career_matrix.map Prod.snd)).map (fun p =>
        (p.1,
         { total_score := p.2.sum,
           average_score := p.2.sum / (p.2.length : ℚ),
           worst_case_score := listMin p.2,
           best_case_score := listMax p.2,
           payoff_vector := p.2 })), ?_, ?_⟩
  · unfold get_career_rankings
    simp only [get_payoff_matrix]
    rw [if_pos hshape]
  · intro e he
    rcases List.mem_map.mp he with ⟨p, hp, rfl⟩
    have hr : p.2 ∈ model.career_matrix.map Prod.snd := (List.of_mem_zip hp).2
    have hlen : p.2.length = m := hall _ hr
    have hne2 : p.2 ≠ [] := by
      intro h0
      rw [h0] at hlen
      simp at hlen
      omega
    have hlpos : (0 : ℚ) < (p.2.length : ℚ) := by
      have h1 : 0 < p.2.length := List.length_pos.mpr hne2
      exact_mod_cast h1
    refine ⟨?_, ?_, ?_⟩
    · show listMin p.2 ≤ p.2.sum / (p.2.length : ℚ)
      rw [le_div_iff hlpos, mul_comm]
      exact length_mul_listMin_le_sum _ hne2
    · show p.2.sum / (p.2.length : ℚ) ≤ listMax p.2
      rw [div_le_iff hlpos, mul_comm]
      exact sum_le_length_mul_listMax _ hne2
    · show p.2.sum / (p.2.length : ℚ) = p.2.sum / (m : ℚ)
      rw [hlen]

/-- C7 witness: the default six-career table (five criteria). -/
theorem rankings_bounds_and_average_witness :
    0 < 5 ∧ (mkCareerGameModel none none).career_matrix ≠ [] ∧
    (∀ p ∈ (mkCareerGameModel none none).career_matrix, p.2.length = 5) ∧
    (∃ entries, get_career_rankings (mkCareerGameModel none none) = some entries ∧
      ∀ e ∈ entries,
        e.2.worst_case_score ≤ e.2.average_score ∧
        e.2.average_score ≤ e.2.best_case_score ∧
        e.2.average_score = e.2.total_score / (5 : ℚ)) :=
  ⟨by decide, by decide, by decide,
   rankings_bounds_and_average (mkCareerGameModel none none) 5
     (by decide) (by decide) (by decide)⟩

/-- C8 (amended): `update_career_matrix` unconditionally replaces the option
map (no length check against the kept labels), and the criteria-label sequence
is replaced exactly when a NON-EMPTY criteria argument is provided: the source
guard `if criteria_labels:` is a truthiness test, so passing `None` — or a
provided but empty list — keeps the previous label sequence. -/
theorem update_replaces_matrix_labels_truthiness (model : CareerGameModel)
    (cm : List (String × List Score)) (cl : Option (List String)) :
    (update_career_matrix model cm cl).career_matrix = cm ∧
    (cl = none →
      (update_career_matrix model cm cl).criteria_labels = model.criteria_labels) ∧
    (cl = some [] →
      (update_career_matrix model cm cl).criteria_labels = model.criteria_labels) ∧
    (∀ l, cl = some l → l ≠ [] →
      (update_career_matrix model cm cl).criteria_labels = l) := by
  refine ⟨rfl, ?_, ?_, ?_⟩
  · rintro rfl; rfl
  · rintro rfl; rfl
  · rintro l rfl hl
    simp [update_career_matrix, hl]

/-- C8 witness: a non-empty criteria argument does replace the labels, and the
matrix is replaced even though the new vectors mismatch the label count. -/
theorem update_replaces_matrix_labels_truthiness_witness :
    (update_career_matrix (mkCareerGameModel none none)
        [("A", [1])] (some ["L"])).career_matrix = [("A", [1])] ∧
    (update_career_matrix (mkCareerGameModel none none)
        [("A", [1])] (some ["L"])).criteria_labels = ["L"] :=
  ⟨(update_replaces_matrix_labels_truthiness (mkCareerGameModel none none)
      [("A", [1])] (some ["L"])).1,
   (update_replaces_matrix_labels_truthiness (mkCareerGameModel none none)
      [("A", [1])] (some ["L"])).2.2.2 ["L"] rfl (by decide)⟩

/-- C8 counterexample: a criteria argument IS provided (an explicit empty
list), yet the label sequence is not replaced — the previous (default) labels
are kept, refuting "replaced exactly when a criteria argument is provided". -/
theorem update_empty_labels_counterexample :
    (update_career_matrix (mkCareerGameModel none none) [("X", [1, 2])]
        (some [])).criteria_labels = DEFAULT_CRITERIA_LABELS ∧
    DEFAULT_CRITERIA_LABELS ≠ ([] : List String) :=
  ⟨rfl, by decide⟩

/-- C10: the constructor falls back to the built-in default matrix (resp.
default labels) when given `None` or an empty mapping (resp. label list), so it
never produces a model with zero options; an empty option map arises only
through `update_career_matrix`, which replaces unconditionally. -/
theorem constructor_defaults_never_empty
    (cm : Option (List (String × List Score))) (cl : Option (List String)) :
    (mkCareerGameModel cm cl).career_matrix ≠ [] ∧
    ((cm = none ∨ cm = some []) →
      (mkCareerGameModel cm cl).career_matrix = DEFAULT_CAREER_MATRIX) ∧
    ((cl = none ∨ cl = some []) →
      (mkCareerGameModel cm cl).criteria_labels = DEFAULT_CRITERIA_LABELS) ∧
    (∀ model : CareerGameModel,
      (update_career_matrix model [] none).career_matrix = []) := by
  refine ⟨?_, ?_, ?_, fun _ => rfl⟩
  · cases cm with
    | none => simp [mkCareerGameModel, DEFAULT_CAREER_MATRIX]
    | some l =>
      by_cases hl : l = [] <;>
        simp [mkCareerGameModel, hl, DEFAULT_CAREER_MATRIX]
  · rintro (rfl | rfl) <;> rfl
  · rintro (rfl | rfl) <;> rfl

/-- C10 witness: explicit empty arguments take the defaults. -/
theorem constructor_defaults_never_empty_witness :
    (mkCareerGameModel (some []) (some [])).career_matrix = DEFAULT_CAREER_MATRIX ∧
    (mkCareerGameModel (some []) (some [])).criteria_labels = DEFAULT_CRITERIA_LABELS :=
  ⟨(constructor_defaults_never_empty (some []) (some [])).2.1 (Or.inr rfl),
   (constructor_defaults_never_empty (some []) (some [])).2.2.1 (Or.inr rfl)⟩

/-! ### The Response-to-Table Adapter: `parse_agent_response_text` and friends

Characters that are restricted in this file's surface syntax (braces, the
double quote, the apostrophe) are constructed by code point. -/

def lbraceCh : Char := Char.ofNat 123

def rbraceCh : Char := Char.ofNat 125

def quoteCh : Char := Char.ofNat 34

def aposCh : Char := Char.ofNat 39

/-- ASCII lower-casing (Python `str.lower()` on the ASCII inputs used here). -/
def asciiLower (c : Char) : Char :=
  if 'A' ≤ c && c ≤ 'Z' then Char.ofNat (c.toNat + 32) else c

/-- ASCII upper-casing. -/
def asciiUpper (c : Char) : Char :=
  if 'a' ≤ c && c ≤ 'z' then Char.ofNat (c.toNat - 32) else c

/-- Python/regex whitespace over the ASCII range (space, tab, LF, CR, VT, FF). -/
def isPyWs (c : Char) : Bool :=
  c = ' ' || c = '\t' || c = '\n' || c = '\r' ||
  c = Char.ofNat 11 || c = Char.ofNat 12

/-- The value produced by `json.loads`: objects keep CPython dict semantics
(insertion order, duplicate keys overwrite in place). -/
inductive JsonValue where
  | null
  | bool (b : Bool)
  | num (q : ℚ)
  | str (s : String)
  | arr (xs : List JsonValue)
  | obj (kvs : List (String × JsonValue))
deriving Repr

/-- CPython dict insertion: an existing key keeps its position and gets the
new value, a new key is appended. -/
def dictInsert (kvs : List (String × JsonValue)) (k : String) (v : JsonValue) :
    List (String × JsonValue) :=
  if kvs.any (fun p => p.1 = k) then
    kvs.map (fun p => if p.1 = k then (k, v) else p)
  else kvs ++ [(k, v)]

/-- Body of a JSON string literal after the opening quote: content and the
rest after the closing quote.  The basic escape set suffices for every payload
here; a `\u` escape is outside the modelled subset and fails the decode. -/
def parseStringBody : Nat → List Char → Option (List Char × List Char)
  | 0, _ => none
  | _ + 1, [] => none
  | fuel + 1, c :: rest =>
    if c = quoteCh then some ([], rest)
    else if c = '\\' then
      match rest with
      | [] => none
      | e :: rest2 =>
        let dec : Option Char :=
          if e = quoteCh then some quoteCh
          else if e = '\\' then some '\\'
          else if e = '/' then some '/'
          else if e = 'n' then some '\n'
          else if e = 't' then some '\t'
          else if e = 'r' then some '\r'
          else if e = 'b' then some (Char.ofNat 8)
          else if e = 'f' then some (Char.ofNat 12)
          else none
        match dec with
        | none => none
        | some d => (parseStringBody fuel rest2).map (fun p => (d :: p.1, p.2))
    else (parseStringBody fuel rest).map (fun p => (c :: p.1, p.2))

/-- A run of decimal digits as a natural number. -/
def parseDigits (cs : List Char) : Option (Nat × List Char) :=
  let ds := cs.takeWhile Char.isDigit
  if ds = [] then none
  else some (ds.foldl (fun acc c => acc * 10 + (c.toNat - 48)) 0, cs.drop ds.length)

/-- A JSON integer numeral (every score in the source's payloads is an
integer; fractional or exponent numerals are outside the modelled subset and
fail the decode). -/
def parseIntNumeral (neg : Bool) (cs : List Char) : Option (JsonValue × List Char) :=
  match parseDigits cs with
  | none => none
  | some (n, rest) =>
    let bad := match rest with
      | d :: _ => d = '.' || d = 'e' || d = 'E'
      | [] => false
    if bad then none
    else some (JsonValue.num (if neg then -(n : ℚ) else (n : ℚ)), rest)

mutual

/-- One JSON value, by recursive descent with a character-count fuel. -/
def parseJsonValue (fuel : Nat) (cs : List Char) : Option (JsonValue × List Char) :=
  match fuel with
  | 0 => none
  | fuel' + 1 =>
    let cs2 := cs.dropWhile isPyWs
    match cs2 with
    | [] => none
    | c :: rest =>
      if c = quoteCh then
        match parseStringBody (rest.length + 1) rest with
        | none => none
        | some p => some (JsonValue.str (String.mk p.1), p.2)
      else if c = lbraceCh then parseObjFirst fuel' rest
      else if c = '[' then parseArrFirst fuel' rest
      else if c = '-' then parseIntNumeral true rest
      else if c.isDigit then parseIntNumeral false cs2
      else if List.isPrefixOf ("true".toList) cs2 then
        some (JsonValue.bool true, cs2.drop 4)
      else if List.isPrefixOf ("false".toList) cs2 then
        some (JsonValue.bool false, cs2.drop 5)
      else if List.isPrefixOf ("null".toList) cs2 then
        some (JsonValue.null, cs2.drop 4)
      else none
termination_by structural fuel

/-- After `[`: empty array or the first element. -/
def parseArrFirst (fuel : Nat) (cs : List Char) : Option (JsonValue × List Char) :=
  match fuel with
  | 0 => none
  | fuel' + 1 =>
    let cs2 := cs.dropWhile isPyWs
    match cs2 with
    | [] => none
    | c :: rest =>
      if c = ']' then some (JsonValue.arr [], rest)
      else
        match parseJsonValue fuel' cs2 with
        | none => none
        | some (v, rest2) => parseArrRest fuel' [v] rest2
termination_by structural fuel

/-- Array continuation: `,` separated elements until `]` (accumulator is
reversed). -/
def parseArrRest (fuel : Nat) (acc : List JsonValue) (cs : List Char) :
    Option (JsonValue × List Char) :=
  match fuel with
  | 0 => none
  | fuel' + 1 =>
    let cs2 := cs.dropWhile isPyWs
    match cs2 with
    | [] => none
    | c :: rest =>
      if c = ']' then some (JsonValue.arr acc.reverse, rest)
      else if c = ',' then
        match parseJsonValue fuel' rest with
        | none => none
        | some (v, rest2) => parseArrRest fuel' (v :: acc) rest2
      else none
termination_by structural fuel

/-- After the opening brace: empty object or the first key. -/
def parseObjFirst (fuel : Nat) (cs : List Char) : Option (JsonValue × List Char) :=
  match fuel with
  | 0 => none
  | fuel' + 1 =>
    let cs2 := cs.dropWhile isPyWs
    match cs2 with
    | [] => none
    | c :: rest =>
      if c = rbraceCh then some (JsonValue.obj [], rest)
      else if c = quoteCh then
        match parseStringBody (rest.length + 1) rest with
        | none => none
        | some p => parseObjVal fuel' [] (String.mk p.1) p.2
      else none
termination_by structural fuel

/-- After a key: expect `:` and the value, then continue. -/
def parseObjVal (fuel : Nat) (acc : List (String × JsonValue)) (k : String)
    (cs : List Char) : Option (JsonValue × List Char) :=
  match fuel with
  | 0 => none
  | fuel' + 1 =>
    let cs2 := cs.dropWhile isPyWs
    match cs2 with
    | [] => none
    | c :: rest =>
      if c = ':' then
        match parseJsonValue fuel' rest with
        | none => none
        | some (v, rest2) => parseObjRest fuel' (dictInsert acc k v) rest2
      else none
termination_by structural fuel

/-- Object continuation: `,` separated key/value pairs until the closing
brace. -/
def parseObjRest (fuel : Nat) (acc : List (String × JsonValue)) (cs : List Char) :
    Option (JsonValue × List Char) :=
  match fuel with
  | 0 => none
  | fuel' + 1 =>
    let cs2 := cs.dropWhile isPyWs
    match cs2 with
    | [] => none
    | c :: rest =>
      if c = rbraceCh then some (JsonValue.obj acc, rest)
      else if c = ',' then
        let rest2 := rest.dropWhile isPyWs
        match rest2 with
        | [] => none
        | c2 :: rest3 =>
          if c2 = quoteCh then
            match parseStringBody (rest3.length + 1) rest3 with
            | none => none
            | some p => parseObjVal fuel' acc (String.mk p.1) p.2
          else none
      else none
termination_by structural fuel

end

/-- `json.loads`: decode one value and require only trailing whitespace after
it; an `Except.error` models `json.JSONDecodeError`. -/
def json_loads (s : String) : Except Unit JsonValue :=
  match parseJsonValue (s.length + 1) s.toList with
  | some (v, rest) =>
    if (rest.dropWhile isPyWs).isEmpty then Except.ok v else Except.error ()
  | none => Except.error ()

/-! ### Fallback keyword extraction (`extract_careers_from_text`) -/

/-- A regex word character (`\w`) over the ASCII inputs used here. -/
def isWordCh (c : Char) : Bool := c.isAlpha || c.isDigit || c = '_'

/-- Whether the character preceding the next scan position is a word
character: the last character of the text just consumed, or the given default
at the start. -/
def lastIsWordCh (a : List Char) (dflt : Bool) : Bool :=
  match a.getLast? with
  | some lc => isWordCh lc
  | none => dflt

/-- Try the alternatives of a `\b(alt1|alt2|...)\b` group, in pattern order,
at the current position.  Every alternative starts and ends with a word
character, so the leading boundary is "previous character is not a word
character" and the trailing boundary is "next character, if any, is not a word
character" (regex backtracking tries the next alternative when a boundary
fails). -/
def tryWordAlts (alts : List (List Char)) (prevIsWord : Bool) (cs : List Char) :
    Option (List Char × List Char) :=
  if prevIsWord then none
  else
    alts.findSome? (fun a =>
      if List.isPrefixOf a cs then
        let rest := cs.drop a.length
        match rest with
        | [] => some (a, [])
        | c :: _ => if isWordCh c then none else some (a, rest)
      else none)

/-- `re.findall` for a `\b(alt1|...)\b` pattern: non-overlapping leftmost
matches, scanning left to right, restarting after each match. -/
def scanAlts (alts : List (List Char)) : Nat → Bool → List Char → List (List Char)
  | 0, _, _ => []
  | _ + 1, _, [] => []
  | fuel + 1, prevW, c :: t =>
    match tryWordAlts alts prevW (c :: t) with
    | some (a, rest) => a :: scanAlts alts fuel (lastIsWordCh a prevW) rest
    | none => scanAlts alts fuel (isWordCh c) t

/-- The second bounded group of `\b(A)\b.*?\b(B)\b`: the lazy gap takes the
first position where some alternative of `B` matches; the pattern is compiled
without `re.DOTALL`, so the gap cannot cross a newline. -/
def findSecond (alts2 : List (List Char)) :
    Nat → Bool → List Char → Option (List Char × List Char)
  | 0, _, _ => none
  | _ + 1, _, [] => none
  | fuel + 1, prevW, c :: t =>
    match tryWordAlts alts2 prevW (c :: t) with
    | some r => some r
    | none => if c = '\n' then none else findSecond alts2 fuel (isWordCh c) t

/-- `re.findall` for `\b(A...)\b.*?\b(B...)\b` (pattern 3): each match yields
the tuple of both groups, which `careers_found.update(match)` adds
element-wise; scanning restarts after the full match. -/
def scanPairPat (alts1 alts2 : List (List Char)) :
    Nat → Bool → List Char → List (List Char)
  | 0, _, _ => []
  | _ + 1, _, [] => []
  | fuel + 1, prevW, c :: t =>
    match tryWordAlts alts1 prevW (c :: t) with
    | some (a, rest) =>
      match findSecond alts2 (rest.length + 1) (lastIsWordCh a prevW) rest with
      | some (b, rest2) =>
        a :: b :: scanPairPat alts1 alts2 fuel (lastIsWordCh b true) rest2
      | none => scanPairPat alts1 alts2 fuel (isWordCh c) t
    | none => scanPairPat alts1 alts2 fuel (isWordCh c) t

/-- The unanchored non-capturing tail of pattern 4, `.*?(?:role|...)`: the
lazy gap (which cannot cross a newline, no `re.DOTALL`) ends at the first
plain-substring occurrence of an alternative, tried in pattern order. -/
def findPlain (alts : List (List Char)) :
    Nat → List Char → Option (List Char × List Char)
  | 0, _ => none
  | _ + 1, [] => none
  | fuel + 1, c :: t =>
    match alts.findSome? (fun a =>
        if List.isPrefixOf a (c :: t) then some (a, (c :: t).drop a.length)
        else none) with
    | some r => some r
    | none => if c = '\n' then none else findPlain alts fuel t

/-- `re.findall` for `\b(A...)\b.*?(?:B|...)` (pattern 4): only the first
group is captured; scanning restarts after the full match. -/
def scanPat4 (alts1 alts2 : List (List Char)) :
    Nat → Bool → List Char → List (List Char)
  | 0, _, _ => []
  | _ + 1, _, [] => []
  | fuel + 1, prevW, c :: t =>
    match tryWordAlts alts1 prevW (c :: t) with
    | some (a, rest) =>
      match findPlain alts2 (rest.length + 1) rest with
      | some (b, rest2) =>
        a :: scanPat4 alts1 alts2 fuel (lastIsWordCh b true) rest2
      | none => scanPat4 alts1 alts2 fuel (isWordCh c) t
    | none => scanPat4 alts1 alts2 fuel (isWordCh c) t

/-- First-occurrence deduplication (used both for the `careers_found` set and
for the `if formatted_career not in formatted_careers` loop). -/
def dedupKeepFirst : List String → List String
  | [] => []
  | x :: t => x :: (dedupKeepFirst t).filter (fun y => y ≠ x)

/-- The matched string for the third alternative of pattern 3 (`master` with
an apostrophe and `s`, lower-cased). -/
def mastersChars : List Char := "master".toList ++ [aposCh] ++ "s".toList

/-- The matched string for the fourth alternative of pattern 3. -/
def bachelorsChars : List Char := "bachelor".toList ++ [aposCh] ++ "s".toList

/-- `career.replace(ch, ch2)` for single characters. -/
def pyReplaceChar (a b : Char) (s : String) : String :=
  String.mk (s.toList.map (fun c => if c = a then b else c))

/-- Python `str.title()` over the ASCII inputs used here: a letter is
upper-cased when the preceding character is not a letter, lower-cased
otherwise. -/
def titleChars : Bool → List Char → List Char
  | _, [] => []
  | prevAlpha, c :: t =>
    (if c.isAlpha then (if prevAlpha then asciiLower c else asciiUpper c) else c)
      :: titleChars c.isAlpha t

/-- `s.title()`. -/
def pyTitle (s : String) : String := String.mk (titleChars false s.toList)

/-- `s.lower()`. -/
def pyLower (s : String) : String := String.mk (s.toList.map asciiLower)

/-- `extract_careers_from_text`: run the four career regex patterns over the
lower-cased text, pool the matches into `careers_found` (a Python set — its
iteration order is an unspecified hash order, modelled here as first-insertion
order across the patterns in source order; the claims settled in this file do
not depend on the ordering among multiple matches), keep matches longer than
two characters, title-case them with underscores replaced by spaces,
deduplicate, and cap at six. -/
def extract_careers_from_text (text : String) : List String :=
  let tl := text.toList.map asciiLower
  let fuel := tl.length + 1
  let p1 := scanAlts (["software engineer", "data scientist", "product manager",
    "consultant", "researcher", "analyst"].map String.toList) fuel false tl
  let p2 := scanAlts (["developer", "designer", "manager", "scientist",
    "engineer", "architect", "specialist"].map String.toList) fuel false tl
  let p3 := scanPairPat ["mba".toList, "phd".toList, mastersChars, bachelorsChars]
    (["holder", "graduate", "student"].map String.toList) fuel false tl
  let p4 := scanPat4 (["marketing", "sales", "finance", "operations",
    "strategy", "consulting"].map String.toList)
    (["role", "position", "career", "job"].map String.toList) fuel false tl
  let careers_found := dedupKeepFirst ((p1 ++ p2 ++ p3 ++ p4).map String.mk)
  let formatted_careers := dedupKeepFirst
    ((careers_found.filter (fun c => 2 < c.length)).map
      (fun c => pyTitle (pyReplaceChar '_' ' ' c)))
  formatted_careers.take 6

/-- Python `pat in hay` substring containment. -/
def hasSubstr (pat : List Char) : List Char → Bool
  | [] => pat.isEmpty
  | c :: t => List.isPrefixOf pat (c :: t) || hasSubstr pat t

/-- The parsed result dictionary: `career_matrix` and `criteria_labels`. -/
structure ParsedData where
  career_matrix : List (String × List Score)
  criteria_labels : List String
deriving DecidableEq, Repr

/-- The literal criteria labels of `create_basic_matrix_from_mentions`. -/
def fallback_criteria_labels : List String :=
  ["Salary Potential", "Job Security", "Growth Opportunity",
   "Work Life Balance", "Skill Transferability", "Market Demand",
   "Education Barrier", "Remote Flexibility"]

/-- `career_defaults` of `create_basic_matrix_from_mentions` (a dict literal:
deterministic insertion order). -/
def career_defaults : List (String × List Score) :=
  [("software engineer", [9, 8, 8, 7, 8, 9, 6, 9]),
   ("data scientist", [8, 7, 9, 6, 8, 8, 5, 8]),
   ("product manager", [8, 7, 8, 6, 9, 8, 7, 7]),
   ("consultant", [7, 6, 7, 4, 9, 6, 6, 6]),
   ("researcher", [6, 8, 6, 8, 7, 5, 4, 7]),
   ("analyst", [6, 7, 6, 7, 7, 7, 7, 6]),
   ("designer", [6, 6, 7, 7, 7, 7, 6, 8]),
   ("manager", [7, 7, 8, 5, 8, 7, 8, 6]),
   ("developer", [8, 7, 7, 7, 7, 8, 6, 8]),
   ("architect", [9, 8, 7, 6, 8, 7, 5, 7])]

/-- `create_basic_matrix_from_mentions`: for each mentioned career, the first
entry of `career_defaults` (in dict insertion order, `break` on first hit)
whose key contains or is contained in the lower-cased mention, else the flat
all-6 vector.  The mentions arrive already deduplicated from
`extract_careers_from_text`, so building the dict as an ordered map over the
list is faithful. -/
def create_basic_matrix_from_mentions (career_mentions : List String) : ParsedData where
  career_matrix := career_mentions.map (fun career =>
    let career_key := pyLower career
    match career_defaults.find? (fun p =>
        hasSubstr p.1.toList career_key.toList ||
        hasSubstr career_key.toList p.1.toList) with
    | some p => (career, p.2)
    | none => (career, [6, 6, 6, 6, 6, 6, 6, 6]))
  criteria_labels := fallback_criteria_labels

/-! ### The primary structured path -/

/-- The canonical `criteria_order` list of the source. -/
def criteria_order : List String :=
  ["salary_potential", "job_security", "growth_opportunity",
   "work_life_balance", "skill_transferability", "market_demand",
   "education_barrier", "remote_flexibility"]

/-- `c.replace(underscore, space).title()` for the criteria display labels. -/
def displayLabel (c : String) : String := pyTitle (pyReplaceChar '_' ' ' c)

/-- `dict.get(k)` on a decoded JSON object (keys are unique after
`dictInsert`, so the first hit is the binding). -/
def pyDictGet (kvs : List (String × JsonValue)) (k : String) : Option JsonValue :=
  (kvs.find? (fun p => p.1 = k)).map Prod.snd

/-- The numeric payload of a decoded JSON score value.  The source appends the
raw `scores.get(criterion, 5)` value to the vector; under the model's declared
score type (`Dict[str, List[float]]`) that value is numeric, and every payload
the spec and claims exercise is numeric — a non-numeric score value lies
outside the modelled subset and is read as 0 here. -/
def jsonNum : JsonValue → Score
  | .num q => q
  | _ => 0

/-- `scores.get(criterion, 5)`: the stored value if the key is present, the
midpoint 5 otherwise.  The non-object branch is unreachable: the caller
routes a non-object `scores` to the caught `AttributeError` instead. -/
def getScore (scores : JsonValue) (criterion : String) : Score :=
  match scores with
  | .obj kvs =>
    match pyDictGet kvs criterion with
    | some v => jsonNum v
    | none => 5
  | _ => 0

/-- Whether a decoded JSON value is an object (a Python dict). -/
def isObjJson : JsonValue → Bool
  | .obj _ => true
  | _ => false

/-- A Python exception escaping `parse_agent_response_text` (the function's
`except` clause names only `json.JSONDecodeError` and `AttributeError`). -/
inductive PyExn where
  | typeError
deriving DecidableEq, Repr

/-- Outcome of running the structured-payload body on the decoded value. -/
inductive PrimaryOutcome where
  | raised (e : PyExn)
  | caughtNone
  | through
  | success (d : ParsedData)
deriving DecidableEq, Repr

/-- The body run on the decoded payload `career_data` (source lines 323-344).
`if 'careers' in career_data:` is a Python `in` test: key membership on a
dict, substring containment on a string, element membership on a list, and a
`TypeError` on a number, boolean or `None` — and that `TypeError` (like the
one from then subscripting a non-dict) is NOT in the `except` clause, so it is
`raised` to the caller.  A non-dict `careers` value, or non-dict per-career
scores, raise `AttributeError` on `.items()` / `.get`, which IS caught
(`caughtNone`).  A dict without the `careers` key does not return, so control
falls `through` to the fallback scan. -/
def convert_career_payload (career_data : JsonValue) : PrimaryOutcome :=
  match career_data with
  | .obj kvs =>
    match pyDictGet kvs "careers" with
    | none => .through
    | some careers =>
      match careers with
      | .obj cs =>
        if cs.all (fun p => isObjJson p.2) then
          .success
            { career_matrix := cs.map (fun p =>
                (p.1, criteria_order.map (fun c => getScore p.2 c))),
              criteria_labels := criteria_order.map displayLabel }
        else .caughtNone
      | _ => .caughtNone
  | .str s =>
    if hasSubstr ("careers".toList) s.toList then .raised .typeError else .through
  | .arr xs =>
    if xs.any (fun v => match v with | .str s => s = "careers" | _ => false) then
      .raised .typeError
    else .through
  | _ => .raised .typeError

/-- Case-insensitive literal match at the head: the remainder on success (the
pattern is given lower-cased). -/
def caselessPrefixDrop : List Char → List Char → Option (List Char)
  | [], cs => some cs
  | _ :: _, [] => none
  | p :: pt, c :: ct => if asciiLower c = p then caselessPrefixDrop pt ct else none

/-- Characters before the first closing fence; `none` when no fence follows
(the regex match then fails at this start position). -/
def takeUntilTicks : List Char → Option (List Char)
  | [] => none
  | c :: t =>
    if List.isPrefixOf ("```".toList) (c :: t) then some []
    else (takeUntilTicks t).map (fun b => c :: b)

/-- Strip trailing regex whitespace (the `\s*` between the lazy group and the
closing fence). -/
def trimTrailingWs (cs : List Char) : List Char :=
  (cs.reverse.dropWhile isPyWs).reverse

/-- Whole-pattern match at one start position: the tag, optional whitespace,
the opening fence, optional whitespace, then the lazily captured body up to
the first closing fence with surrounding whitespace stripped. -/
def matchBlockAt (cs : List Char) : Option (List Char) :=
  match caselessPrefixDrop ("career_matrix:".toList) cs with
  | none => none
  | some r1 =>
    match caselessPrefixDrop ("```json".toList) (r1.dropWhile isPyWs) with
    | none => none
    | some r3 =>
      match takeUntilTicks (r3.dropWhile isPyWs) with
      | none => none
      | some body => some (trimTrailingWs body)

/-- Leftmost start position where the whole pattern matches (as `re.search`
scans). -/
def findBlockAux : List Char → Option (List Char)
  | [] => none
  | c :: t =>
    match matchBlockAt (c :: t) with
    | some b => some b
    | none => findBlockAux t

/-- The `re.search` for the tagged fenced block (compiled with `re.DOTALL`
and `re.IGNORECASE`): the captured group 1, if the pattern matches anywhere. -/
def findCareerMatrixBlock (response_text : String) : Option String :=
  (findBlockAux response_text.toList).map String.mk

/-- The fallback tail of `parse_agent_response_text`: keyword extraction, then
`if career_mentions:` (list truthiness) builds the basic table, else `None`.
No exception can arise on this path. -/
def fallbackScan (response_text : String) : Except PyExn (Option ParsedData) :=
  let career_mentions := extract_careers_from_text response_text
  if career_mentions = [] then Except.ok none
  else Except.ok (some (create_basic_matrix_from_mentions career_mentions))

/-- `parse_agent_response_text`: the primary structured path, falling back to
keyword extraction.  `Except.ok none` is Python `return None`; `Except.error`
is an exception escaping the function (its `except` clause catches only
`json.JSONDecodeError` — which here yields `return None` — and
`AttributeError`). -/
def parse_agent_response_text (response_text : String) :
    Except PyExn (Option ParsedData) :=
  match findCareerMatrixBlock response_text with
  | some json_str =>
    match json_loads json_str with
    | .error _ => Except.ok none
    | .ok career_data =>
      match convert_career_payload career_data with
      | .raised e => Except.error e
      | .caughtNone => Except.ok none
      | .success d => Except.ok (some d)
      | .through => fallbackScan response_text
  | none => fallbackScan response_text

/-! ### Claims about the adapter -/

instance : DecidableEq (Except PyExn (Option ParsedData)) := fun a b =>
  match a, b with
  | .ok x, .ok y =>
    if h : x = y then isTrue (by rw [h]) else isFalse (by intro hc; cases hc; exact h rfl)
  | .error x, .error y =>
    if h : x = y then isTrue (by rw [h]) else isFalse (by intro hc; cases hc; exact h rfl)
  | .ok _, .error _ => isFalse (by intro hc; cases hc)
  | .error _, .ok _ => isFalse (by intro hc; cases hc)

/-- C3 (amended): on free text with no structured payload where the fallback
extraction finds exactly one distinct career match, the adapter does NOT
return "no usable data": the source has no at-least-two-matches requirement
(`if career_mentions:` is satisfied by one match), so it builds and returns a
single-option table for that match; `None` is returned only when zero matches
are found. -/
theorem single_match_builds_single_option_table (s c : String)
    (hnoblock : findCareerMatrixBlock s = none)
    (hone : extract_careers_from_text s = [c]) :
    parse_agent_response_text s =
      Except.ok (some (create_basic_matrix_from_mentions [c])) ∧
    (create_basic_matrix_from_mentions [c]).career_matrix.length = 1 ∧
    parse_agent_response_text s ≠ Except.ok none := by
  have h1 : parse_agent_response_text s =
      Except.ok (some (create_basic_matrix_from_mentions [c])) := by
    unfold parse_agent_response_text
    rw [hnoblock]
    show fallbackScan s = _
    simp only [fallbackScan, hone]
    rw [if_neg (List.cons_ne_nil c [])]
  refine ⟨h1, ?_, ?_⟩
  · unfold create_basic_matrix_from_mentions
    simp
  · rw [h1]
    simp

/-- C3 witness: the free text "consultant" has exactly one distinct match. -/
theorem single_match_builds_single_option_table_witness :
    findCareerMatrixBlock "consultant" = none ∧
    extract_careers_from_text "consultant" = ["Consultant"] ∧
    (parse_agent_response_text "consultant" =
        Except.ok (some (create_basic_matrix_from_mentions ["Consultant"])) ∧
      (create_basic_matrix_from_mentions ["Consultant"]).career_matrix.length = 1 ∧
      parse_agent_response_text "consultant" ≠ Except.ok none) :=
  ⟨by decide, by decide,
   single_match_builds_single_option_table "consultant" "Consultant"
     (by decide) (by decide)⟩

/-- C3 counterexample: the free text "consultant" contains no structured
payload and yields exactly one distinct fallback match, yet
`parse_agent_response_text` returns a single-option table (not the
"no usable data" `None` the claim requires). -/
theorem single_match_counterexample :
    findCareerMatrixBlock "consultant" = none ∧
    extract_careers_from_text "consultant" = ["Consultant"] ∧
    parse_agent_response_text "consultant" =
      Except.ok (some
        { career_matrix := [("Consultant", [7, 6, 7, 4, 9, 6, 6, 6])],
          criteria_labels := fallback_criteria_labels }) := by
  exact ⟨by decide, by decide, by decide⟩

/-- C4: the claim that `parse_agent_response_text` never raises is refuted by
a structured payload whose fenced JSON decodes to a non-container (here the
scalar `5`): `'careers' in career_data` then raises `TypeError`, which the
`except (json.JSONDecodeError, AttributeError)` clause does not catch, so the
exception propagates to the caller. -/
theorem parse_raises_type_error_on_scalar_payload :
    parse_agent_response_text "CAREER_MATRIX: ```json 5 ```" =
      Except.error PyExn.typeError := by
  decide

/-- A well-formed structured payload, as decoded by `json.loads`: the
`careers` object maps option names to objects of criterion-key/score pairs. -/
def encodeCareersPayload (P : List (String × List (String × Score))) : JsonValue :=
  JsonValue.obj [("careers", JsonValue.obj (P.map (fun p =>
    (p.1, JsonValue.obj (p.2.map (fun q => (q.1, JsonValue.num q.2)))))))]

theorem lookup_eq_find_snd (sc : List (String × Score)) (c : String) :
    List.lookup c sc = (sc.find? (fun q => q.1 = c)).map Prod.snd := by
  induction sc with
  | nil => rfl
  | cons q t ih =>
    rcases q with ⟨k, v⟩
    by_cases h : c = k
    · subst h
      simp [List.lookup, List.find?]
    · have hbeq : (c == k) = false := beq_eq_false_iff_ne.mpr h
      have h2 : (k = c) = False := by
        simp [Ne.symm h]
      simp [List.lookup, List.find?, hbeq, h2, ih]

theorem getScore_encoded (sc : List (String × Score)) (c : String) :
    getScore (JsonValue.obj (sc.map (fun q => (q.1, JsonValue.num q.2)))) c =
      (List.lookup c sc).getD 5 := by
  have hmap : (sc.map (fun q => (q.1, JsonValue.num q.2))).find?
      (fun p => p.1 = c) =
      (sc.find? (fun q => q.1 = c)).map (fun q => (q.1, JsonValue.num q.2)) := by
    rw [List.find?_map]
    rfl
  rw [lookup_eq_find_snd]
  show (match pyDictGet (sc.map (fun q => (q.1, JsonValue.num q.2))) c with
        | some v => jsonNum v
        | none => 5) = ((sc.find? (fun q => q.1 = c)).map Prod.snd).getD 5
  unfold pyDictGet
  rw [hmap]
  cases sc.find? (fun q => q.1 = c) with
  | none => rfl
  | some q => rfl

/-- C5: round-trip — converting a well-formed structured payload (option
names mapped to criterion-key/score objects, dict keys unique) and reading the
resulting table back through `get_payoff_matrix` (after installing it with
`update_career_matrix`, the Table Merge step of the data flow) yields the
score vectors in the same option order with the supplied values, every one of
the eight canonical criterion keys absent for an option appearing as the
midpoint score 5, and the criteria labels in canonical display form. -/
theorem structured_payload_round_trip
    (P : List (String × List (String × Score)))
    (hnames : (P.map Prod.fst).Nodup)
    (hkeys : ∀ p ∈ P, (p.2.map Prod.fst).Nodup)
    (model0 : CareerGameModel) :
    ∃ d, convert_career_payload (encodeCareersPayload P) = PrimaryOutcome.success d ∧
      d.career_matrix = P.map (fun p =>
        (p.1, criteria_order.map (fun c => (List.lookup c p.2).getD 5))) ∧
      d.criteria_labels = criteria_order.map displayLabel ∧
      get_payoff_matrix
          (update_career_matrix model0 d.career_matrix (some d.criteria_labels)) =
        (P.map (fun p =>
           criteria_order.map (fun c => (List.lookup c p.2).getD 5)),
         P.map Prod.fst) := by
  refine ⟨{ career_matrix := P.map (fun p =>
              (p.1, criteria_order.map (fun c => (List.lookup c p.2).getD 5))),
            criteria_labels := criteria_order.map displayLabel }, ?_, rfl, rfl, ?_⟩
  · have hall : (P.map (fun p =>
        (p.1, JsonValue.obj (p.2.map (fun q => (q.1, JsonValue.num q.2)))))).all
        (fun p => isObjJson p.2) = true := by
      rw [List.all_eq_true]
      intro x hx
      rcases List.mem_map.mp hx with ⟨p, _, rfl⟩
      rfl
    have hstep : convert_career_payload (encodeCareersPayload P) =
        (if (P.map (fun p =>
            (p.1, JsonValue.obj (p.2.map (fun q => (q.1, JsonValue.num q.2)))))).all
            (fun p => isObjJson p.2) then
          PrimaryOutcome.success
            { career_matrix := (P.map (fun p =>
                (p.1, JsonValue.obj (p.2.map (fun q => (q.1, JsonValue.num q.2)))))).map
                  (fun p => (p.1, criteria_order.map (fun c => getScore p.2 c))),
              criteria_labels := criteria_order.map displayLabel }
         else PrimaryOutcome.caughtNone) := rfl
    have hmat : (P.map (fun p =>
        (p.1, JsonValue.obj (p.2.map (fun q => (q.1, JsonValue.num q.2)))))).map
          (fun p => (p.1, criteria_order.map (fun c => getScore p.2 c))) =
        P.map (fun p =>
          (p.1, criteria_order.map (fun c => (List.lookup c p.2).getD 5))) := by
      rw [List.map_map]
      apply List.map_congr_left
      intro p _
      simp only [Function.comp]
      congr 1
      apply List.map_congr_left
      intro c _
      exact getScore_encoded p.2 c
    rw [hstep, if_pos hall, hmat]
  · show ((P.map (fun p =>
        (p.1, criteria_order.map (fun c => (List.lookup c p.2).getD 5)))).map Prod.snd,
      (P.map (fun p =>
        (p.1, criteria_order.map (fun c => (List.lookup c p.2).getD 5)))).map Prod.fst) = _
    rw [List.map_map, List.map_map]
    rfl

/-- C5 witness: a concrete two-option payload, one criterion supplied for the
first option and none for the second. -/
theorem structured_payload_round_trip_witness :
    (([("A", [("salary_potential", (7 : Score))]), ("B", [])].map
        (Prod.fst (α := String) (β := List (String × Score)))).Nodup) ∧
    (∀ p ∈ ([("A", [("salary_potential", (7 : Score))]), ("B", [])] :
        List (String × List (String × Score))), (p.2.map Prod.fst).Nodup) ∧
    (∃ d, convert_career_payload (encodeCareersPayload
          [("A", [("salary_potential", (7 : Score))]), ("B", [])]) =
        PrimaryOutcome.success d ∧
      d.career_matrix = ([("A", [("salary_potential", (7 : Score))]), ("B", [])].map
        (fun p => (p.1, criteria_order.map (fun c => (List.lookup c p.2).getD 5)))) ∧
      d.criteria_labels = criteria_order.map displayLabel ∧
      get_payoff_matrix
          (update_career_matrix (mkCareerGameModel none none) d.career_matrix
            (some d.criteria_labels)) =
        ([("A", [("salary_potential", (7 : Score))]), ("B", [])].map (fun p =>
           criteria_order.map (fun c => (List.lookup c p.2).getD 5)),
         [("A", [("salary_potential", (7 : Score))]), ("B", [])].map Prod.fst)) :=
  ⟨by decide, by decide,
   structured_payload_round_trip
     [("A", [("salary_potential", (7 : Score))]), ("B", [])]
     (by decide) (by decide) (mkCareerGameModel none none)⟩

/-- The Scenario A agent response: the spec's two-career payload inside the
tagged fenced block. -/
def scenarioAText : String :=
  "CAREER_MATRIX: ```json\n\x7b\"careers\": \x7b\"Data Scientist\": \x7b\"salary_potential\": 8, \"job_security\": 7, \"growth_opportunity\": 8, \"work_life_balance\": 5, \"skill_transferability\": 6, \"market_demand\": 8, \"education_barrier\": 5, \"remote_flexibility\": 6\x7d, \"MBA\": \x7b\"salary_potential\": 6, \"job_security\": 5, \"growth_opportunity\": 9, \"work_life_balance\": 3, \"skill_transferability\": 9, \"market_demand\": 6, \"education_barrier\": 3, \"remote_flexibility\": 4\x7d\x7d\x7d\n```"

/-- C9 (Scenario A): parsing the two-career structured payload yields the
vectors in payload order; on the resulting table the worst-case scores are 5
for "Data Scientist" and 3 for "MBA", and the minimax selection (index 0, as
reported by the explanation) is "Data Scientist" with worst-case score 5. -/
theorem scenario_a_parse_and_minimax :
    parse_agent_response_text scenarioAText =
      Except.ok (some
        { career_matrix := [("Data Scientist", [8, 7, 8, 5, 6, 8, 5, 6]),
                            ("MBA", [6, 5, 9, 3, 9, 6, 3, 4])],
          criteria_labels := fallback_criteria_labels }) ∧
    calculate_strategy_scores (mkCareerGameModel
        (some [("Data Scientist", [8, 7, 8, 5, 6, 8, 5, 6]),
               ("MBA", [6, 5, 9, 3, 9, 6, 3, 4])])
        (some fallback_criteria_labels)) = some (0, [5, 3]) ∧
    explain_game_theory_choice (mkCareerGameModel
        (some [("Data Scientist", [8, 7, 8, 5, 6, 8, 5, 6]),
               ("MBA", [6, 5, 9, 3, 9, 6, 3, 4])])
        (some fallback_criteria_labels)) =
      some ("Data Scientist", 5, [("Data Scientist", 5), ("MBA", 3)]) := by
  exact ⟨by decide, by decide, by decide⟩
